import Mathlib

/-!
Verification of the go-chi/httplog request-audit middleware.

This file gives a shallow embedding, in Lean 4, of the core logic of the
httplog repository: the severity classifier, the deferred emission path of
the request-logger middleware (panic recovery, level gating, request-body
drain, single emission), the header allow-list filter, the body
truncation/redaction function, the schema/format field mapping, and the
curl rendering helper.  Each definition is translated from the Go source;
the file then proves or refutes the specification claims about them.

Go integer values are modelled as `Int`, Go strings as Lean `String`
(byte-level slicing, where it matters, uses `List Nat` of byte values),
and Go slices as Lean lists.
-/

namespace Httplog

/-- `slog.Level` is an `int` in Go; `LevelDebug/Info/Warn/Error` are -4/0/4/8. -/
abbrev Level := Int

def LevelDebug : Level := -4

def LevelInfo : Level := 0

def LevelWarn : Level := 4

def LevelError : Level := 8

/-- Severity classifier of the first `RequestLogger` variant
(`middleware.go:87-99`): a `switch` that tests `r.Method == "OPTIONS"`
FIRST, then `statusCode >= 500`, `statusCode == 429`, `statusCode >= 400`,
defaulting to Info. -/
def classifyOptionsFirst (method : String) (statusCode : Int) : Level :=
  if method = "OPTIONS" then LevelDebug
  else if statusCode ≥ 500 then LevelError
  else if statusCode = 429 then LevelInfo
  else if statusCode ≥ 400 then LevelWarn
  else LevelInfo

/-- Severity classifier of the second `RequestLogger` variant
(`middleware.go:261-273`): a `switch` that tests `statusCode >= 500` first,
then `statusCode == 429`, `statusCode >= 400`, `r.Method == "OPTIONS"`,
defaulting to Info. -/
def classifyStatusFirst (method : String) (statusCode : Int) : Level :=
  if statusCode ≥ 500 then LevelError
  else if statusCode = 429 then LevelInfo
  else if statusCode ≥ 400 then LevelWarn
  else if method = "OPTIONS" then LevelDebug
  else LevelInfo

/-- Severity classifier of `logger.go:163-173`: `lvl` starts at Info, is
overwritten to Debug for OPTIONS, and then the status chain overwrites it
again (`>= 500` Error, `== 429` Info, `>= 400` Warn), keeping the earlier
value otherwise. -/
def classifyLoggerAssign (method : String) (status : Int) : Level :=
  let lvl := LevelInfo
  let lvl := if method = "OPTIONS" then LevelDebug else lvl
  if status ≥ 500 then LevelError
  else if status = 429 then LevelInfo
  else if status ≥ 400 then LevelWarn
  else lvl

/-- The classifier as the spec's precedence table (§4.4) words it, first
match wins: `status >= 500` Error; `status == 429` Info; `status >= 400`
Warn; `method == OPTIONS` Debug; otherwise Info. -/
def classifySpec (method : String) (statusCode : Int) : Level :=
  if statusCode ≥ 500 then LevelError
  else if statusCode = 429 then LevelInfo
  else if statusCode ≥ 400 then LevelWarn
  else if method = "OPTIONS" then LevelDebug
  else LevelInfo

/-- C1 counterexample: the claim asserts `classify("OPTIONS", 503) = Error`
for the severity classifier, but the classifier of the first middleware
variant (`middleware.go:87-99`) tests the OPTIONS method before the status
code, and returns Debug, not Error, for an OPTIONS request that failed
with a 503 status. -/
theorem classifyOptionsFirst_503_isDebug :
    classifyOptionsFirst "OPTIONS" 503 = LevelDebug ∧
    classifyOptionsFirst "OPTIONS" 503 ≠ LevelError := by
  constructor
  · rfl
  · decide

/-- C1 (amended): the classifiers of `middleware.go:261-273` and
`logger.go:163-173` agree with the spec's precedence table for every
method and status; the earlier variant (`middleware.go:87-99`) agrees for
every non-OPTIONS method but returns Debug for every OPTIONS request,
regardless of status code. -/
theorem classify_precedence (method : String) (statusCode : Int) :
    classifyStatusFirst method statusCode = classifySpec method statusCode ∧
    classifyLoggerAssign method statusCode = classifySpec method statusCode ∧
    classifyOptionsFirst method statusCode =
      (if method = "OPTIONS" then LevelDebug else classifySpec method statusCode) := by
  refine ⟨rfl, rfl, ?_⟩
  by_cases hm : method = "OPTIONS" <;>
    simp [classifyOptionsFirst, classifySpec, hm]

/-! ## The deferred emission path of `RequestLogger` (`middleware.go:225-329`)

The second `RequestLogger` variant wraps the downstream handler call in a
deferred function.  We model the handler's outcome (normal return or a
panic, possibly the `http.ErrAbortHandler` sentinel) and the deferred
function's control flow: forcing a 500 status, scheduling a re-panic,
classifying, the level gate's early return, the request-body drain, and
the single `logger.LogAttrs` call.  Side effects are recorded as an
ordered event trace. -/

/-- Outcome of `next.ServeHTTP`: normal return, or a panic (the Boolean
records whether the recovered value is the `http.ErrAbortHandler`
sentinel). -/
inductive HandlerOutcome where
  | normal : HandlerOutcome
  | panicked (isAbort : Bool) : HandlerOutcome
deriving DecidableEq

/-- Observable actions of the deferred function, in execution order:
`ww.WriteHeader(500)`, the `io.Copy(io.Discard, r.Body)` drain, the
`logger.LogAttrs` emission, and the re-raise `panic(rec)`. -/
inductive FinalizeEvent where
  | write500 : FinalizeEvent
  | drain : FinalizeEvent
  | emit : FinalizeEvent
  | repanic : FinalizeEvent
deriving DecidableEq, BEq

/-- The configuration fields of `Options` that the deferred function reads
(`middleware.go`, second variant). -/
structure LoggerConfig where
  level : Level
  recoverPanics : Bool
  logRequestBody : Bool

/-- Per-request inputs of the deferred function: the method and the
`Connection` header of the request, the response status at defer time
(0 if the handler never wrote one), the handler outcome, and the sink's
`logger.Enabled` predicate. -/
structure FinalizeInput where
  method : String
  connectionHeader : String
  wwStatus : Int
  outcome : HandlerOutcome
  sinkEnabled : Level → Bool

/-- The record handed to `logger.LogAttrs`: the level it is logged at and
the response status it reports. -/
structure EmittedRecord where
  level : Level
  status : Int
deriving DecidableEq

/-- Result of the deferred function: its event trace, the final response
status, and the emitted record (if the level gate passed). -/
structure FinalizeResult where
  events : List FinalizeEvent
  finalStatus : Int
  emitted : Option EmittedRecord

def HandlerOutcome.isPanic : HandlerOutcome → Bool
  | .normal => false
  | .panicked _ => true

def HandlerOutcome.isAbort : HandlerOutcome → Bool
  | .normal => false
  | .panicked isAbort => isAbort

/-- `middleware.go:229-232`: the recover branch calls
`ww.WriteHeader(http.StatusInternalServerError)` exactly when panic
recovery is enabled, no status was written yet, and the `Connection`
header is not `"Upgrade"`. -/
def forces500 (o : LoggerConfig) (inp : FinalizeInput) : Bool :=
  inp.outcome.isPanic && o.recoverPanics && (inp.wwStatus == 0) &&
    (inp.connectionHeader != "Upgrade")

/-- The response status after the recover branch ran. -/
def statusAfterRecover (o : LoggerConfig) (inp : FinalizeInput) : Int :=
  if forces500 o inp then 500 else inp.wwStatus

/-- `middleware.go:234-237`: `defer panic(rec)` is registered for the
abort sentinel unconditionally, and for every panic when recovery is
disabled; it fires when the deferred function returns, on every path. -/
def willRepanic (o : LoggerConfig) (inp : FinalizeInput) : Bool :=
  match inp.outcome with
  | .normal => false
  | .panicked isAbort => isAbort || !o.recoverPanics

/-- `middleware.go:258-273`: the level is classified from the status as
observed after the recover branch (`ww.Status()`), with the status-first
switch. -/
def emitLevel (o : LoggerConfig) (inp : FinalizeInput) : Level :=
  classifyStatusFirst inp.method (statusAfterRecover o inp)

/-- `middleware.go:275-278`: the deferred function returns early when
`!logger.Enabled(ctx, lvl) || lvl < o.Level`. -/
def gatePasses (o : LoggerConfig) (inp : FinalizeInput) : Bool :=
  inp.sinkEnabled (emitLevel o inp) && !(decide (emitLevel o inp < o.level))

/-- The deferred function of `middleware.go:225-329`.  In source order:
the recover branch (forced 500, re-panic scheduling, panic attributes),
classification, the level gate's early return, the request-body drain,
attribute assembly, and the single `logger.LogAttrs` call; a scheduled
re-panic fires last on every path. -/
def deferredFinalize (o : LoggerConfig) (inp : FinalizeInput) : FinalizeResult :=
  let preEvents := if forces500 o inp then [FinalizeEvent.write500] else []
  let postEvents := if willRepanic o inp then [FinalizeEvent.repanic] else []
  let status := statusAfterRecover o inp
  if gatePasses o inp then
    { events := preEvents ++ (if o.logRequestBody then [FinalizeEvent.drain] else [])
        ++ [FinalizeEvent.emit] ++ postEvents
      finalStatus := status
      emitted := some { level := emitLevel o inp, status := status } }
  else
    { events := preEvents ++ postEvents
      finalStatus := status
      emitted := none }

/-- A request the level gate filters out: a normal `GET` returning 200
under a configured minimum level of Error. -/
def gateFilteredConfig : LoggerConfig :=
  { level := LevelError, recoverPanics := true, logRequestBody := false }

def gateFilteredInput : FinalizeInput :=
  { method := "GET", connectionHeader := "", wwStatus := 200,
    outcome := .normal, sinkEnabled := fun _ => true }

/-- C2 counterexample: the claim says every request handled by the
middleware emits exactly one record, never zero; but a normal `GET`
request answered with 200 under `Options.Level = slog.LevelError` is
filtered by the level gate (`middleware.go:275-278`) and emits zero
records. -/
theorem deferredFinalize_zeroEmit :
    (deferredFinalize gateFilteredConfig gateFilteredInput).events.count .emit = 0 ∧
    (deferredFinalize gateFilteredConfig gateFilteredInput).emitted = none := by
  exact ⟨rfl, rfl⟩

/-- C2 (amended): per request the deferred function runs once and calls
`logger.LogAttrs` at most once — exactly once when the level gate passes
and zero times when it filters the request; this holds also when the
handler panics, and for an abort-sentinel panic that passes the gate the
record is emitted strictly before the panic is re-raised. -/
theorem deferredFinalize_emitOnce (o : LoggerConfig) (inp : FinalizeInput) :
    (deferredFinalize o inp).events.count .emit =
      (if gatePasses o inp then 1 else 0) ∧
    (deferredFinalize o inp).events.count .emit ≤ 1 ∧
    (inp.outcome.isAbort = true →
      (deferredFinalize o inp).events.count .repanic = 1 ∧
      (gatePasses o inp = true →
        ∃ pre, (deferredFinalize o inp).events =
          pre ++ [FinalizeEvent.emit, FinalizeEvent.repanic])) := by
  have hab : inp.outcome.isAbort = true → willRepanic o inp = true := by
    intro h
    cases hout : inp.outcome with
    | normal => rw [hout] at h; simp [HandlerOutcome.isAbort] at h
    | panicked b =>
      rw [hout] at h
      simp only [HandlerOutcome.isAbort] at h
      simp [willRepanic, hout, h]
  unfold deferredFinalize
  by_cases hg : gatePasses o inp = true
  · simp only [hg, if_true]
    refine ⟨?_, ?_, ?_⟩
    · cases hf : forces500 o inp <;> cases hr : willRepanic o inp <;>
        cases hb : o.logRequestBody <;>
        simp [List.count_append, List.count_cons, List.count_nil] <;> decide
    · cases hf : forces500 o inp <;> cases hr : willRepanic o inp <;>
        cases hb : o.logRequestBody <;>
        simp [List.count_append, List.count_cons, List.count_nil] <;> decide
    · intro ha
      have hr := hab ha
      refine ⟨?_, ?_⟩
      · cases hf : forces500 o inp <;> cases hb : o.logRequestBody <;>
          simp [hr, List.count_append, List.count_cons, List.count_nil] <;> decide
      · intro _
        refine ⟨(if forces500 o inp then [FinalizeEvent.write500] else []) ++
          (if o.logRequestBody then [FinalizeEvent.drain] else []), ?_⟩
        simp [hr]
  · simp only [hg, if_false]
    refine ⟨?_, ?_, ?_⟩
    · cases hf : forces500 o inp <;> cases hr : willRepanic o inp <;>
        simp [List.count_append, List.count_cons, List.count_nil] <;> decide
    · cases hf : forces500 o inp <;> cases hr : willRepanic o inp <;>
        simp [List.count_append, List.count_cons, List.count_nil] <;> decide
    · intro ha
      have hr := hab ha
      refine ⟨?_, ?_⟩
      · cases hf : forces500 o inp <;>
          simp [hr, List.count_append, List.count_cons, List.count_nil] <;> decide
      · intro hg2
        simp at hg2

/-- An abort-sentinel panic that passes the gate, for the C2 witness. -/
def abortPanicConfig : LoggerConfig :=
  { level := LevelInfo, recoverPanics := true, logRequestBody := true }

def abortPanicInput : FinalizeInput :=
  { method := "GET", connectionHeader := "", wwStatus := 0,
    outcome := .panicked true, sinkEnabled := fun _ => true }

/-- Witness for the amended C2 theorem at a concrete abort-sentinel panic. -/
theorem deferredFinalize_emitOnce_witness :
    (deferredFinalize abortPanicConfig abortPanicInput).events.count .repanic = 1 ∧
    ∃ pre, (deferredFinalize abortPanicConfig abortPanicInput).events =
      pre ++ [FinalizeEvent.emit, FinalizeEvent.repanic] := by
  have h := (deferredFinalize_emitOnce abortPanicConfig abortPanicInput).2.2 (by rfl)
  exact ⟨h.1, h.2 (by rfl)⟩

/-- C3: when the classified level is below the configured minimum, or the
sink reports the level disabled, the deferred function returns before any
work: no record is emitted, the request body is not drained, and no
attributes are rendered (`middleware.go:275-278` precedes
`middleware.go:280-328`). -/
theorem gateFiltered_noWork (o : LoggerConfig) (inp : FinalizeInput)
    (h : gatePasses o inp = false) :
    (deferredFinalize o inp).emitted = none ∧
    (deferredFinalize o inp).events.count .drain = 0 ∧
    (deferredFinalize o inp).events.count .emit = 0 := by
  unfold deferredFinalize
  simp only [h, if_false]
  refine ⟨rfl, ?_, ?_⟩ <;>
    cases hf : forces500 o inp <;> cases hr : willRepanic o inp <;>
      simp [List.count_append, List.count_cons, List.count_nil] <;> decide

/-- Witness for C3 at the concrete filtered request. -/
theorem gateFiltered_noWork_witness :
    (deferredFinalize gateFilteredConfig gateFilteredInput).emitted = none ∧
    (deferredFinalize gateFilteredConfig gateFilteredInput).events.count .drain = 0 ∧
    (deferredFinalize gateFilteredConfig gateFilteredInput).events.count .emit = 0 :=
  gateFiltered_noWork gateFilteredConfig gateFilteredInput (by rfl)

/-- C4: on a panic, if recovery is enabled, no status was written and the
connection is not being upgraded, the middleware writes 500 first
(`ww.WriteHeader` is the head of the trace) and the record reflects
status 500; in every other panic case the already-written status is left
unchanged. -/
theorem panic_forces500 (o : LoggerConfig) (inp : FinalizeInput) (b : Bool)
    (hout : inp.outcome = .panicked b) :
    ((o.recoverPanics = true ∧ inp.wwStatus = 0 ∧ inp.connectionHeader ≠ "Upgrade") →
      (deferredFinalize o inp).finalStatus = 500 ∧
      (deferredFinalize o inp).events.head? = some FinalizeEvent.write500 ∧
      (∀ rec, (deferredFinalize o inp).emitted = some rec → rec.status = 500)) ∧
    (¬(o.recoverPanics = true ∧ inp.wwStatus = 0 ∧ inp.connectionHeader ≠ "Upgrade") →
      (deferredFinalize o inp).finalStatus = inp.wwStatus ∧
      (∀ rec, (deferredFinalize o inp).emitted = some rec →
        rec.status = inp.wwStatus)) := by
  constructor
  · rintro ⟨h1, h2, h3⟩
    have hforce : forces500 o inp = true := by
      simp [forces500, hout, HandlerOutcome.isPanic, h1, h2, h3]
    have hstat : statusAfterRecover o inp = 500 := by
      simp [statusAfterRecover, hforce]
    unfold deferredFinalize
    by_cases hg : gatePasses o inp = true <;>
      simp [hg, hforce, hstat]
  · intro hneg
    have hforce : forces500 o inp = false := by
      simp only [forces500, hout, HandlerOutcome.isPanic, Bool.true_and]
      by_cases h1 : o.recoverPanics
      · by_cases h2 : inp.wwStatus = 0
        · by_cases h3 : inp.connectionHeader = "Upgrade"
          · simp [h3]
          · exact absurd ⟨h1, h2, fun hc => h3 hc⟩ hneg
        · simp [h2]
      · simp [h1]
    have hstat : statusAfterRecover o inp = inp.wwStatus := by
      simp [statusAfterRecover, hforce]
    unfold deferredFinalize
    by_cases hg : gatePasses o inp = true <;>
      simp [hg, hstat]

/-- A non-abort panic with no status written yet, for the C4 witness. -/
def panicInput : FinalizeInput :=
  { method := "GET", connectionHeader := "", wwStatus := 0,
    outcome := .panicked false, sinkEnabled := fun _ => true }

/-- Witness for C4 at a concrete panicking request: the forced-500 branch. -/
theorem panic_forces500_witness :
    (deferredFinalize abortPanicConfig panicInput).finalStatus = 500 ∧
    (deferredFinalize abortPanicConfig panicInput).events.head? =
      some FinalizeEvent.write500 ∧
    (∀ rec, (deferredFinalize abortPanicConfig panicInput).emitted = some rec →
      rec.status = 500) :=
  (panic_forces500 abortPanicConfig panicInput false (by rfl)).1
    ⟨rfl, rfl, by decide⟩

/-! ## Header allow-list filtering (`middleware.go:336-347`)

`getHeaderAttrs` walks the caller's allow-list of header names; for each
name it asks the header multimap for its values, appends a scalar string
attribute when there is exactly one value, a list attribute when there
are two or more, and nothing when there are none. -/

/-- A rendered header attribute: `slog.String` for one value,
`slog.Any(..., vals)` for several. -/
inductive HeaderAttr where
  | scalar (key val : String) : HeaderAttr
  | multi (key : String) (vals : List String) : HeaderAttr
deriving DecidableEq

def HeaderAttr.key : HeaderAttr → String
  | .scalar k _ => k
  | .multi k _ => k

/-- `http.Header.Values(name)`: the value list stored under the name, or
the empty list when the name is absent.  The multimap is modelled as an
association list with one entry per name. -/
def headerValues (header : List (String × List String)) (name : String) : List String :=
  match header.find? (fun p => p.fst == name) with
  | some p => p.snd
  | none => []

/-- `getHeaderAttrs` (`middleware.go:336-347`): the loop over the
allow-list. -/
def getHeaderAttrs (header : List (String × List String)) :
    List String → List HeaderAttr
  | [] => []
  | h :: rest =>
    match headerValues header h with
    | [] => getHeaderAttrs header rest
    | [v] => HeaderAttr.scalar h v :: getHeaderAttrs header rest
    | vs => HeaderAttr.multi h vs :: getHeaderAttrs header rest

/-- The header filter as the spec words it (§4.3): one pass over the
allow-list, in order, keeping scalar attributes for single-valued names,
list attributes for multi-valued names, and omitting absent names. -/
def headerFilterSpec (header : List (String × List String))
    (allow : List String) : List HeaderAttr :=
  allow.filterMap (fun h =>
    match headerValues header h with
    | [] => none
    | [v] => some (HeaderAttr.scalar h v)
    | vs => some (HeaderAttr.multi h vs))

/-- C5: `getHeaderAttrs` renders exactly the allow-listed headers present
in the map, in allow-list order (the output keys are a sublist of the
allow-list and every key is allow-listed), scalars for one value, lists
for several; on the spec's example it yields exactly the two attributes
`X-A="1"` and `X-B=["2","3"]`. -/
theorem getHeaderAttrs_spec :
    (∀ (header : List (String × List String)) (allow : List String),
      getHeaderAttrs header allow = headerFilterSpec header allow ∧
      ((getHeaderAttrs header allow).map HeaderAttr.key).Sublist allow ∧
      (getHeaderAttrs header allow).all
        (fun a => allow.contains a.key) = true) ∧
    getHeaderAttrs [("X-A", ["1"]), ("X-B", ["2", "3"])] ["X-A", "X-B", "X-C"] =
      [HeaderAttr.scalar "X-A" "1", HeaderAttr.multi "X-B" ["2", "3"]] := by
  have main : ∀ (header : List (String × List String)) (allow : List String),
      getHeaderAttrs header allow = headerFilterSpec header allow ∧
      ((getHeaderAttrs header allow).map HeaderAttr.key).Sublist allow := by
    intro header allow
    induction allow with
    | nil => exact ⟨rfl, List.Sublist.refl _⟩
    | cons h rest ih =>
      cases hv : headerValues header h with
      | nil =>
        refine ⟨?_, ?_⟩
        · simp only [getHeaderAttrs, headerFilterSpec, List.filterMap_cons, hv]
          exact ih.1
        · simp only [getHeaderAttrs, hv]
          exact ih.2.cons h
      | cons v vs =>
        cases vs with
        | nil =>
          refine ⟨?_, ?_⟩
          · simp only [getHeaderAttrs, headerFilterSpec, List.filterMap_cons, hv]
            rw [ih.1]; rfl
          · simp only [getHeaderAttrs, hv, List.map_cons, HeaderAttr.key]
            exact ih.2.cons₂ h
        | cons v2 vs2 =>
          refine ⟨?_, ?_⟩
          · simp only [getHeaderAttrs, headerFilterSpec, List.filterMap_cons, hv]
            rw [ih.1]; rfl
          · simp only [getHeaderAttrs, hv, List.map_cons, HeaderAttr.key]
            exact ih.2.cons₂ h
  refine ⟨fun header allow => ⟨(main header allow).1, (main header allow).2, ?_⟩, ?_⟩
  · rw [List.all_eq_true]
    intro a ha
    have hk : a.key ∈ (getHeaderAttrs header allow).map HeaderAttr.key :=
      List.mem_map_of_mem HeaderAttr.key ha
    have : a.key ∈ allow := (main header allow).2.subset hk
    exact List.elem_eq_true_of_mem this
  · rfl

/-! ## Request-body drain and the fully-read flag (`logger.go:150-157`)

While body capture is active the request body is wrapped in a
`TeeReader` (`logger.go:111`, `middleware.go:213`), which copies every
byte read from `r.Body` into the capture buffer — the handler's reads
and, after the handler returns, the reads of the
`io.Copy(io.Discard, r.Body)` drain alike.  The `BodyFullyRead` flag,
initially false, is set exactly when the drain copied zero bytes.  The
buffer logged afterwards (`logger.go:156`, `middleware.go:295`) is the
capture buffer as it stands after the drain. -/

/-- The request body and how much of it the downstream handler read. -/
structure RequestBodyState where
  body : List Nat
  consumed : Nat

/-- The capture buffer before the drain: the bytes the handler pulled
through the `TeeReader`. -/
def teeCaptured (st : RequestBodyState) : List Nat := st.body.take st.consumed

/-- Bytes the post-handler `io.Copy(io.Discard, r.Body)` reads: the unread
remainder. -/
def drainCount (st : RequestBodyState) : Nat := (st.body.drop st.consumed).length

/-- The body-related fields of the record after the deferred function ran:
the `BodyFullyRead` flag, how many bytes the drain copied, and the capture
buffer as logged, i.e. after the drain has teed through it. -/
structure BodyFinalizeResult where
  fullyRead : Bool
  drainedBytes : Nat
  loggedBody : List Nat

/-- `logger.go:150-157` (and `middleware.go:284-290`): the drain runs only
when request-body capture is on; `FullyRead` is set iff it copies zero
bytes.  Because the drain reads through the same `TeeReader`, its bytes
are appended to the capture buffer, so the logged buffer is the handler's
prefix followed by the drained remainder. -/
def finalizeRequestBody (logRequestBody : Bool) (st : RequestBodyState) :
    BodyFinalizeResult :=
  if logRequestBody then
    let n := drainCount st
    { fullyRead := n == 0, drainedBytes := n,
      loggedBody := teeCaptured st ++ st.body.drop st.consumed }
  else
    { fullyRead := false, drainedBytes := 0, loggedBody := [] }

/-- C7 counterexample: the claim says the drain does not expose the
drained bytes, but the drain reads through the `TeeReader`, so they land
in the very buffer that is logged.  For a five-byte body of which the
handler read two, the drain copies three further bytes and the logged
buffer is the whole body — strictly more than the handler-consumed
prefix. -/
theorem finalizeRequestBody_exposesDrained :
    (finalizeRequestBody true { body := [104, 101, 108, 108, 111], consumed := 2
      }).drainedBytes = 3 ∧
    (finalizeRequestBody true { body := [104, 101, 108, 108, 111], consumed := 2
      }).loggedBody = [104, 101, 108, 108, 111] ∧
    (finalizeRequestBody true { body := [104, 101, 108, 108, 111], consumed := 2
      }).loggedBody ≠ ([104, 101, 108, 108, 111] : List Nat).take 2 := by
  refine ⟨rfl, rfl, ?_⟩
  decide

/-- C7 (amended): with request-body capture active, after the handler
returns the middleware drains the unread remainder
(`body.length - consumed` bytes), and the fully-read flag is true exactly
when the drain read zero further bytes, i.e. when the handler consumed
the entire body; the drained bytes are not discarded from the capture:
they tee into the buffer, so the logged body is the entire request body,
not only the handler-consumed prefix. -/
theorem finalizeRequestBody_fullyRead (st : RequestBodyState) :
    (finalizeRequestBody true st).drainedBytes = st.body.length - st.consumed ∧
    (finalizeRequestBody true st).loggedBody = st.body ∧
    (finalizeRequestBody true st).fullyRead =
      ((finalizeRequestBody true st).drainedBytes == 0) ∧
    (finalizeRequestBody true st).fullyRead =
      decide (st.body.length ≤ st.consumed) := by
  refine ⟨?_, ?_, rfl, ?_⟩
  · simp [finalizeRequestBody, drainCount]
  · show teeCaptured st ++ st.body.drop st.consumed = st.body
    exact List.take_append_drop st.consumed st.body
  · simp only [finalizeRequestBody, if_true, drainCount, List.length_drop]
    by_cases h : st.body.length ≤ st.consumed
    · simp [Nat.sub_eq_zero_of_le h, h]
    · have : st.body.length - st.consumed ≠ 0 := by omega
      simp [this, h]

/-! ## Body logging: content-type allow-list, truncation, redaction
(`middleware.go:349-362`, `options.go:88-95`)

`logBody` receives the capture buffer, the headers (of which it reads
`Content-Type`), and the options.  Go string slicing is byte-based, so
bodies and content types are modelled as lists of byte values. -/

abbrev GoBytes := List Nat

/-- Byte values of an ASCII string literal. -/
def asciiBytes (s : String) : GoBytes := s.data.map Char.toNat

/-- The `"... [trimmed]"` suffix marking truncation. -/
def trimMarker : GoBytes := asciiBytes "... [trimmed]"

/-- The `"[redacted]"` placeholder for disallowed content types. -/
def redactedMarker : GoBytes := asciiBytes "[redacted]"

/-- The options fields `logBody` reads. -/
structure BodyLogOptions where
  logBodyContentTypes : List GoBytes
  logBodyMaxLen : Int

/-- The loop of `logBody` (`middleware.go:353-360`): for each allow-listed
content type, if it is a prefix of the request's `Content-Type` header,
return the body — whole if `LogBodyMaxLen <= 0` or
`LogBodyMaxLen >= body.Len()`, else its first `LogBodyMaxLen` bytes plus
the trim marker; if no entry matches, return the redaction placeholder. -/
def logBodyLoop (body contentTypeHeader : GoBytes) (maxLen : Int) :
    List GoBytes → GoBytes
  | [] => redactedMarker
  | ct :: rest =>
    if ct.isPrefixOf contentTypeHeader then
      if maxLen ≤ 0 ∨ (body.length : Int) ≤ maxLen then body
      else body.take maxLen.toNat ++ trimMarker
    else logBodyLoop body contentTypeHeader maxLen rest

/-- `logBody` (`middleware.go:349-362`).  `contentTypeHeader` stands for
`header.Get("Content-Type")`. -/
def logBody (body contentTypeHeader : GoBytes) (o : BodyLogOptions) : GoBytes :=
  if body.length = 0 then []
  else logBodyLoop body contentTypeHeader o.logBodyMaxLen o.logBodyContentTypes

/-- `Options.LogBodyContentTypes` default (`options.go:93`): note the
final empty entry. -/
def defaultLogBodyContentTypes : List GoBytes :=
  [asciiBytes "application/json", asciiBytes "application/xml",
   asciiBytes "text/plain", asciiBytes "text/csv",
   asciiBytes "application/x-www-form-urlencoded", asciiBytes ""]

/-- The defaults of `options.go:88-95` restricted to the fields `logBody`
reads (`RequestLogger` at `middleware.go:200-205` substitutes them for
unset options). -/
def defaultBodyLogOptions : BodyLogOptions :=
  { logBodyContentTypes := defaultLogBodyContentTypes, logBodyMaxLen := 1024 }

/-- Once some allow-list entry is a prefix of the content type, `logBody`'s
loop returns the (possibly truncated) body, no matter which entry
matched. -/
theorem logBodyLoop_matched (body contentTypeHeader : GoBytes) (maxLen : Int)
    (cts : List GoBytes)
    (h : cts.any (fun ct => ct.isPrefixOf contentTypeHeader) = true) :
    logBodyLoop body contentTypeHeader maxLen cts =
      (if maxLen ≤ 0 ∨ (body.length : Int) ≤ maxLen then body
       else body.take maxLen.toNat ++ trimMarker) := by
  induction cts with
  | nil => simp at h
  | cons ct rest ih =>
    simp only [List.any_cons, Bool.or_eq_true] at h
    by_cases hct : ct.isPrefixOf contentTypeHeader = true
    · simp [logBodyLoop, hct]
    · have hrest : rest.any (fun ct => ct.isPrefixOf contentTypeHeader) = true := by
        rcases h with h | h
        · exact absurd h hct
        · exact h
      simp [logBodyLoop, hct, ih hrest]

/-- C6: for a non-empty captured body whose content type passes the
allow-list, a positive maximum smaller than the body length yields exactly
the first `LogBodyMaxLen` bytes followed by the `"... [trimmed]"` marker,
and a non-positive (negative or zero, "unset") maximum yields the body
unmodified. -/
theorem logBody_truncation (body contentTypeHeader : GoBytes) (o : BodyLogOptions)
    (hne : body ≠ [])
    (hmatch : o.logBodyContentTypes.any
      (fun ct => ct.isPrefixOf contentTypeHeader) = true) :
    (0 < o.logBodyMaxLen → o.logBodyMaxLen < (body.length : Int) →
      logBody body contentTypeHeader o =
        body.take o.logBodyMaxLen.toNat ++ trimMarker) ∧
    (o.logBodyMaxLen ≤ 0 → logBody body contentTypeHeader o = body) := by
  have hlen : body.length ≠ 0 := by
    intro h0
    exact hne (List.length_eq_zero.mp h0)
  constructor
  · intro hpos hlt
    unfold logBody
    rw [if_neg hlen, logBodyLoop_matched body contentTypeHeader _ _ hmatch]
    rw [if_neg]
    push_neg
    exact ⟨hpos, hlt⟩
  · intro hneg
    unfold logBody
    rw [if_neg hlen, logBodyLoop_matched body contentTypeHeader _ _ hmatch]
    rw [if_pos]
    exact Or.inl hneg

/-- A 20-byte body with the default JSON content type and max length 10,
for the C6 witness. -/
def truncationOptions : BodyLogOptions :=
  { logBodyContentTypes := defaultLogBodyContentTypes, logBodyMaxLen := 10 }

/-- Witness for C6: with max length 10, a 20-byte body is logged as its
first 10 bytes plus the trim marker. -/
theorem logBody_truncation_witness :
    logBody (asciiBytes "aaaaabbbbbcccccddddd") (asciiBytes "application/json")
        truncationOptions =
      (asciiBytes "aaaaabbbbbcccccddddd").take 10 ++ trimMarker :=
  (logBody_truncation (asciiBytes "aaaaabbbbbcccccddddd")
      (asciiBytes "application/json") truncationOptions
      (by decide) (by decide)).1 (by decide) (by decide)

/-- C10: under the default options the allow-list ends with the empty
string, which is a prefix of every `Content-Type` value (including an
absent one), so the redaction branch of `logBody` is unreachable: every
non-empty captured body is logged, whole or truncated at 1024 bytes. -/
theorem logBody_default_neverRedacts (body contentTypeHeader : GoBytes)
    (hne : body ≠ []) :
    defaultLogBodyContentTypes.any
      (fun ct => ct.isPrefixOf contentTypeHeader) = true ∧
    (logBody body contentTypeHeader defaultBodyLogOptions = body ∨
     logBody body contentTypeHeader defaultBodyLogOptions =
       body.take 1024 ++ trimMarker) := by
  have hany : defaultLogBodyContentTypes.any
      (fun ct => ct.isPrefixOf contentTypeHeader) = true := by
    simp only [defaultLogBodyContentTypes, List.any_cons, List.any_nil,
      Bool.or_eq_true]
    have : (asciiBytes "").isPrefixOf contentTypeHeader = true := by
      show List.isPrefixOf [] contentTypeHeader = true
      cases contentTypeHeader <;> rfl
    tauto
  have hlen : body.length ≠ 0 := by
    intro h0
    exact hne (List.length_eq_zero.mp h0)
  refine ⟨hany, ?_⟩
  unfold logBody
  rw [if_neg hlen]
  show logBodyLoop body contentTypeHeader 1024 defaultLogBodyContentTypes = _ ∨
    logBodyLoop body contentTypeHeader 1024 defaultLogBodyContentTypes = _
  rw [logBodyLoop_matched body contentTypeHeader _ _ hany]
  by_cases hc : (1024 : Int) ≤ 0 ∨ (body.length : Int) ≤ 1024
  · left
    rw [if_pos hc]
  · right
    rw [if_neg hc]
    have : Int.toNat 1024 = 1024 := by decide
    rw [this]

/-- Witness for C10 at a concrete body and content type. -/
theorem logBody_default_neverRedacts_witness :
    logBody (asciiBytes "hello") (asciiBytes "image/png")
        defaultBodyLogOptions = asciiBytes "hello" ∨
    logBody (asciiBytes "hello") (asciiBytes "image/png")
        defaultBodyLogOptions = (asciiBytes "hello").take 1024 ++ trimMarker :=
  (logBody_default_neverRedacts (asciiBytes "hello") (asciiBytes "image/png")
    (by decide)).2

/-! ## Format-driven attribute assembly (`part_012`, the format-based
`RequestLogger`) and the schema field mapping (`schema.go`)

The format-based middleware variant maps every semantic field through a
`Format` of field names and assembles the record with `appendAttrs`,
which drops attributes whose key is the empty string.  The later
`Schema` (`schema.go`) additionally rewrites the standard slog
attributes (`time`, `level`, `msg`, `source`, `error`) by
`Schema.ReplaceAttr`. -/

/-- A `slog` attribute value, as far as the middleware constructs them. -/
inductive LVal where
  | str (s : String) : LVal
  | int (n : Int) : LVal
  | float (ms : Int) : LVal
  | list (vs : List String) : LVal
  | group (attrs : List (String × LVal)) : LVal

/-- A `slog.Attr`: a key and a value. -/
structure LAttr where
  key : String
  val : LVal

/-- `Format` (`format.go:3-36`): the field-name mapping of the
format-based middleware variant. -/
structure Format where
  timestamp : String
  level : String
  message : String
  error : String
  errorStackTrace : String
  requestURL : String
  requestMethod : String
  requestPath : String
  requestRemoteIP : String
  requestHost : String
  requestScheme : String
  requestProto : String
  requestHeaders : String
  requestBody : String
  requestBytes : String
  requestBytesUnread : String
  requestUserAgent : String
  requestReferer : String
  responseHeaders : String
  responseBody : String
  responseStatus : String
  responseDuration : String
  responseBytes : String
  groupDelimiter : String

/-- The `Concise` format (`format.go:130-138`): every field name is empty
except the error, stack trace, header and body groups. -/
def conciseFormat : Format :=
  { timestamp := "", level := "", message := "", error := "error",
    errorStackTrace := "stacktrace", requestURL := "", requestMethod := "",
    requestPath := "", requestRemoteIP := "", requestHost := "",
    requestScheme := "", requestProto := "", requestHeaders := "request.headers",
    requestBody := "request.body", requestBytes := "",
    requestBytesUnread := "request.bytesUnread", requestUserAgent := "",
    requestReferer := "", responseHeaders := "response.headers",
    responseBody := "response.body", responseStatus := "",
    responseDuration := "", responseBytes := "", groupDelimiter := "" }

/-- `appendAttrs` (`part_012:158-165`): appends only the attributes whose
key is non-empty. -/
def appendAttrs (attrs : List LAttr) : List LAttr → List LAttr
  | [] => attrs
  | a :: rest => appendAttrs (if a.key != "" then attrs ++ [a] else attrs) rest

/-- `appendAttrs` is append-after-dropping-empty-keys. -/
theorem appendAttrs_eq_filter (newAttrs : List LAttr) :
    ∀ attrs, appendAttrs attrs newAttrs =
      attrs ++ newAttrs.filter (fun a => a.key != "") := by
  induction newAttrs with
  | nil => intro attrs; simp [appendAttrs]
  | cons a rest ih =>
    intro attrs
    by_cases h : a.key != ""
    · simp only [appendAttrs, h, if_true, ih, List.filter_cons, List.append_assoc,
        List.singleton_append]
    · simp only [appendAttrs, h, if_false, ih, List.filter_cons]
      simp only [Bool.not_eq_true] at h
      simp [h]

/-- The per-request values the format-based middleware renders
(`part_012:50-142`): panic info, the base field values, the drain result,
body capture flags and texts, and the extra/context attribute lists. -/
structure RenderInput where
  panicked : Bool
  panicIsAbort : Bool
  panicMsg : String
  panicStack : List String
  timestampVal : String
  levelVal : String
  messageVal : String
  requestURLVal : String
  methodVal : String
  pathVal : String
  remoteIPVal : String
  hostVal : String
  schemeVal : String
  protoVal : String
  requestHeaderAttrs : List (String × LVal)
  requestBytesVal : Int
  userAgentVal : String
  refererVal : String
  responseHeaderAttrs : List (String × LVal)
  statusVal : Int
  durationMsVal : Int
  responseBytesVal : Int
  drainActive : Bool
  unreadBytes : Int
  logReqBody : Bool
  reqBodyVal : String
  logRespBody : Bool
  respBodyVal : String
  extraAttrs : List LAttr
  ctxAttrs : List LAttr

/-- The eighteen unconditional semantic attributes of `part_012:105-124`,
keyed by the format's field names, in source order. -/
def baseAttrs (f : Format) (d : RenderInput) : List LAttr :=
  [⟨f.timestamp, LVal.str d.timestampVal⟩,
   ⟨f.level, LVal.str d.levelVal⟩,
   ⟨f.message, LVal.str d.messageVal⟩,
   ⟨f.requestURL, LVal.str d.requestURLVal⟩,
   ⟨f.requestMethod, LVal.str d.methodVal⟩,
   ⟨f.requestPath, LVal.str d.pathVal⟩,
   ⟨f.requestRemoteIP, LVal.str d.remoteIPVal⟩,
   ⟨f.requestHost, LVal.str d.hostVal⟩,
   ⟨f.requestScheme, LVal.str d.schemeVal⟩,
   ⟨f.requestProto, LVal.str d.protoVal⟩,
   ⟨f.requestHeaders, LVal.group d.requestHeaderAttrs⟩,
   ⟨f.requestBytes, LVal.int d.requestBytesVal⟩,
   ⟨f.requestUserAgent, LVal.str d.userAgentVal⟩,
   ⟨f.requestReferer, LVal.str d.refererVal⟩,
   ⟨f.responseHeaders, LVal.group d.responseHeaderAttrs⟩,
   ⟨f.responseStatus, LVal.int d.statusVal⟩,
   ⟨f.responseDuration, LVal.float d.durationMsVal⟩,
   ⟨f.responseBytes, LVal.int d.responseBytesVal⟩]

/-- The record assembly of the format-based `RequestLogger`
(`part_012:50-142`), before the optional group nesting: the panic
attributes, the base attributes, the unread-bytes attribute, the body
attributes, the extra attributes and the context attributes, each pushed
through `appendAttrs`. -/
def buildLogAttrs (f : Format) (d : RenderInput) : List LAttr :=
  let a0 : List LAttr := []
  let a1 := if d.panicked then
      appendAttrs a0 [⟨f.error, LVal.str ("panic: " ++ d.panicMsg)⟩]
    else a0
  let a2 := if d.panicked && !d.panicIsAbort then
      appendAttrs a1 [⟨f.errorStackTrace, LVal.list d.panicStack⟩]
    else a1
  let a3 := appendAttrs a2 (baseAttrs f d)
  let a4 := if d.drainActive && decide (0 < d.unreadBytes) then
      appendAttrs a3 [⟨f.requestBytesUnread, LVal.int d.unreadBytes⟩]
    else a3
  let a5 := if d.logReqBody then
      appendAttrs a4 [⟨f.requestBody, LVal.str d.reqBodyVal⟩]
    else a4
  let a6 := if d.logRespBody then
      appendAttrs a5 [⟨f.responseBody, LVal.str d.respBodyVal⟩]
    else a5
  let a7 := appendAttrs a6 d.extraAttrs
  appendAttrs a7 d.ctxAttrs

/-- The same attribute sequence with no filtering: what the record would
contain if every semantic field were rendered. -/
def semanticAttrs (f : Format) (d : RenderInput) : List LAttr :=
  (if d.panicked then [⟨f.error, LVal.str ("panic: " ++ d.panicMsg)⟩] else []) ++
  (if d.panicked && !d.panicIsAbort then
    [⟨f.errorStackTrace, LVal.list d.panicStack⟩] else []) ++
  baseAttrs f d ++
  (if d.drainActive && decide (0 < d.unreadBytes) then
    [⟨f.requestBytesUnread, LVal.int d.unreadBytes⟩] else []) ++
  (if d.logReqBody then [⟨f.requestBody, LVal.str d.reqBodyVal⟩] else []) ++
  (if d.logRespBody then [⟨f.responseBody, LVal.str d.respBodyVal⟩] else []) ++
  d.extraAttrs ++ d.ctxAttrs

/-! ### `Schema.ReplaceAttr` (`schema.go:164-222`) -/

/-- A `slog` value as `Schema.ReplaceAttr` inspects it: a time value
(carrying its RFC 3339 rendering), a plain string, an integer, a
`*slog.Source`, the zero value, or a group. -/
inductive SVal where
  | timeV (rfc3339 : String) : SVal
  | strV (s : String) : SVal
  | intV (n : Int) : SVal
  | srcV (file : String) (line : Int) (function : String) : SVal
  | nilV : SVal
  | grpV (attrs : List (String × SVal)) : SVal

/-- `slog.Value.String()` as `ReplaceAttr` uses it (on level and message
values). -/
def svalString : SVal → String
  | .timeV t => t
  | .strV s => s
  | .intV n => toString n
  | .srcV _ _ _ => ""
  | .nilV => ""
  | .grpV _ => ""

/-- `a.Value.Time().Format(time.RFC3339)`: the stored rendering. -/
def svalTimeFormat : SVal → String
  | .timeV t => t
  | _ => ""

/-- `Schema` (`schema.go:14-54`): the semantic-field-to-name mapping. -/
structure Schema where
  timestamp : String
  level : String
  message : String
  errorMessage : String
  errorType : String
  errorStackTrace : String
  sourceFile : String
  sourceLine : String
  sourceFunction : String
  requestURL : String
  requestMethod : String
  requestPath : String
  requestRemoteIP : String
  requestHost : String
  requestScheme : String
  requestProto : String
  requestHeaders : String
  requestBody : String
  requestBytes : String
  requestBytesUnread : String
  requestUserAgent : String
  requestReferer : String
  responseHeaders : String
  responseBody : String
  responseStatus : String
  responseDuration : String
  responseBytes : String
  groupDelimiter : String

/-- `SchemaECS` (`schema.go:61-89`). -/
def SchemaECS : Schema :=
  { timestamp := "@timestamp", level := "log.level", message := "message",
    errorMessage := "error.message", errorType := "error.type",
    errorStackTrace := "error.stack_trace",
    sourceFile := "log.origin.file.name", sourceLine := "log.origin.file.line",
    sourceFunction := "log.origin.function", requestURL := "url.full",
    requestMethod := "http.request.method", requestPath := "url.path",
    requestRemoteIP := "client.ip", requestHost := "url.domain",
    requestScheme := "url.scheme", requestProto := "http.version",
    requestHeaders := "http.request.headers",
    requestBody := "http.request.body.content",
    requestBytes := "http.request.body.bytes",
    requestBytesUnread := "http.request.body.unread.bytes",
    requestUserAgent := "user_agent.original",
    requestReferer := "http.request.referrer",
    responseHeaders := "http.response.headers",
    responseBody := "http.response.body.content",
    responseStatus := "http.response.status_code",
    responseDuration := "event.duration",
    responseBytes := "http.response.body.bytes", groupDelimiter := "" }

/-- `Schema.Concise` (`schema.go:228-243`): for `concise = true`, a schema
keeping only the error, stack-trace, header, body and unread-bytes
mappings (and the group delimiter); every other field name is unset. -/
def Schema.conciseSchema (s : Schema) (concise : Bool) : Schema :=
  if !concise then s
  else
    { timestamp := "", level := "", message := "",
      errorMessage := s.errorMessage, errorType := "",
      errorStackTrace := s.errorStackTrace,
      sourceFile := "", sourceLine := "", sourceFunction := "",
      requestURL := "", requestMethod := "", requestPath := "",
      requestRemoteIP := "", requestHost := "", requestScheme := "",
      requestProto := "", requestHeaders := s.requestHeaders,
      requestBody := s.requestBody, requestBytes := "",
      requestBytesUnread := s.requestBytesUnread,
      requestUserAgent := "", requestReferer := "",
      responseHeaders := s.responseHeaders, responseBody := s.responseBody,
      responseStatus := "", responseDuration := "", responseBytes := "",
      groupDelimiter := s.groupDelimiter }

/-- `strings.Cut(s, sep)` over character lists: the text before and after
the first occurrence of `sep`, and whether it occurred. -/
def cutChars (sep : List Char) : List Char → Option (List Char × List Char)
  | [] => if sep.isPrefixOf [] then some ([], []) else none
  | c :: cs =>
    if sep.isPrefixOf (c :: cs) then some ([], (c :: cs).drop sep.length)
    else match cutChars sep cs with
      | some (pre, post) => some (c :: pre, post)
      | none => none

/-- `strings.Cut` on strings. -/
def strCut (s sep : String) : String × String × Bool :=
  match cutChars sep.data s.data with
  | some (pre, post) => (String.mk pre, String.mk post, true)
  | none => (s, "", false)

/-- `strings.Contains(s, sub)`. -/
def strContains (s sub : String) : Bool := (strCut s sub).2.2

/-- The zero `slog.Attr{}`. -/
def emptySAttr : String × SVal := ("", SVal.nilV)

/-- `Schema.ReplaceAttr` (`schema.go:164-222`): rewrites the standard
`time`, `level`, `msg`, `source` and `error` attributes to the schema's
field names; attributes inside groups and unrecognized keys pass through
unchanged.  When the mapping for time/level/msg is unset, the attribute
is returned UNCHANGED (not suppressed). -/
def Schema.replaceAttr (s : Schema) (groups : List String)
    (a : String × SVal) : String × SVal :=
  if groups.length > 0 then a
  else if a.fst = "time" then
    if s.timestamp = "" then a
    else (s.timestamp, SVal.strV (svalTimeFormat a.snd))
  else if a.fst = "level" then
    if s.level = "" then a
    else (s.level, SVal.strV (svalString a.snd))
  else if a.fst = "msg" then
    if s.message = "" then a
    else (s.message, SVal.strV (svalString a.snd))
  else if a.fst = "source" then
    match a.snd with
    | SVal.srcV file line fn =>
      if s.sourceFile = "" then
        if strContains file "/go-chi/httplog/" then emptySAttr else a
      else if s.groupDelimiter = "" then
        ("", SVal.grpV [(s.sourceFile, SVal.strV file),
          (s.sourceLine, SVal.intV line), (s.sourceFunction, SVal.strV fn)])
      else
        let g1 := strCut s.sourceFile s.groupDelimiter
        let g2 := strCut s.sourceLine s.groupDelimiter
        let g3 := strCut s.sourceFunction s.groupDelimiter
        (g1.1, SVal.grpV [(g1.2.1, SVal.strV file),
          (g2.2.1, SVal.intV line), (g3.2.1, SVal.strV fn)])
    | _ => a
  else if a.fst = "error" then
    if s.groupDelimiter = "" then (s.errorMessage, a.snd)
    else
      let g := strCut s.errorMessage s.groupDelimiter
      if !g.2.2 then (s.errorMessage, a.snd)
      else (g.1, SVal.grpV [(g.2.1, a.snd)])
  else a

/-- A concrete time attribute, as the slog handler presents it to
`ReplaceAttr`. -/
def sampleTimeAttr : String × SVal :=
  ("time", SVal.timeV "2026-01-02T03:04:05Z")

/-- C8 counterexample: under the concise ECS schema the `Timestamp`
semantic key is mapped to the empty string, yet `Schema.ReplaceAttr`
(`schema.go:170-174`) returns the standard `time` attribute unchanged, so
the timestamp field still appears in the rendered record under the
default slog key `time` — it is not suppressed. -/
theorem replaceAttr_emptyTimestamp_keeps_time :
    (SchemaECS.conciseSchema true).timestamp = "" ∧
    Schema.replaceAttr (SchemaECS.conciseSchema true) [] sampleTimeAttr =
      sampleTimeAttr ∧
    sampleTimeAttr.fst = "time" := by
  exact ⟨rfl, rfl, rfl⟩

/-- C8 (amended): the middleware-assembled attributes with an unset
(empty) field name are suppressed entirely — `appendAttrs` drops them, so
the assembled record equals the full semantic sequence filtered to
non-empty keys, and contains no empty-keyed attribute; however, for the
standard base attributes rewritten by `Schema.ReplaceAttr` an unset
mapping leaves the `time`/`level`/`msg` attribute unchanged under its
default slog key rather than suppressing it. -/
theorem schema_field_suppression :
    (∀ (f : Format) (d : RenderInput),
      buildLogAttrs f d =
        (semanticAttrs f d).filter (fun a => a.key != "") ∧
      (buildLogAttrs f d).all (fun a => a.key != "") = true) ∧
    (∀ (s : Schema) (v : SVal), s.timestamp = "" →
      Schema.replaceAttr s [] ("time", v) = ("time", v)) ∧
    (∀ (s : Schema) (v : SVal), s.level = "" →
      Schema.replaceAttr s [] ("level", v) = ("level", v)) ∧
    (∀ (s : Schema) (v : SVal), s.message = "" →
      Schema.replaceAttr s [] ("msg", v) = ("msg", v)) := by
  refine ⟨?_, ?_, ?_, ?_⟩
  · intro f d
    have heq : buildLogAttrs f d =
        (semanticAttrs f d).filter (fun a => a.key != "") := by
      unfold buildLogAttrs semanticAttrs
      simp only [appendAttrs_eq_filter, List.filter_append]
      by_cases h1 : d.panicked <;>
        by_cases h2 : d.panicked && !d.panicIsAbort <;>
        by_cases h3 : d.drainActive && decide (0 < d.unreadBytes) <;>
        by_cases h4 : d.logReqBody <;>
        by_cases h5 : d.logRespBody <;>
        by_cases h6 : d.panicIsAbort <;>
        simp [h1, h2, h3, h4, h5, h6, appendAttrs_eq_filter, List.filter_append,
          List.append_assoc]
    refine ⟨heq, ?_⟩
    rw [heq, List.all_eq_true]
    intro a ha
    exact (List.mem_filter.mp ha).2
  · intro s v h
    simp [Schema.replaceAttr, h]
  · intro s v h
    simp [Schema.replaceAttr, h]
  · intro s v h
    simp [Schema.replaceAttr, h]

/-- Witness for the amended C8 theorem: the concise format (all base
field names unset) at a concrete input assembles a record with no
empty-keyed attribute, and an unset timestamp mapping leaves the `time`
attribute unchanged. -/
theorem schema_field_suppression_witness :
    (buildLogAttrs conciseFormat
      { panicked := false, panicIsAbort := false, panicMsg := "",
        panicStack := [], timestampVal := "t", levelVal := "INFO",
        messageVal := "m", requestURLVal := "u", methodVal := "GET",
        pathVal := "/", remoteIPVal := "ip", hostVal := "h",
        schemeVal := "http", protoVal := "HTTP/1.1",
        requestHeaderAttrs := [], requestBytesVal := 0, userAgentVal := "ua",
        refererVal := "", responseHeaderAttrs := [], statusVal := 200,
        durationMsVal := 1, responseBytesVal := 2, drainActive := false,
        unreadBytes := 0, logReqBody := false, reqBodyVal := "",
        logRespBody := false, respBodyVal := "", extraAttrs := [],
        ctxAttrs := [] }).all (fun a => a.key != "") = true ∧
    Schema.replaceAttr (SchemaECS.conciseSchema true) []
      ("time", SVal.timeV "2026-01-02T03:04:05Z") =
      ("time", SVal.timeV "2026-01-02T03:04:05Z") :=
  ⟨(schema_field_suppression.1 conciseFormat _).2,
   schema_field_suppression.2.1 (SchemaECS.conciseSchema true)
     (SVal.timeV "2026-01-02T03:04:05Z") rfl⟩

/-! ## Curl rendering (`part_026:9-43`)

`curl` renders a single shell line reproducing the captured request:
`-X` only for non-GET/POST methods, the single-quoted URL, `--data-raw`
only for POST, and one `-H` flag per header value.  `singleQuoted` wraps
a value in single quotes, escaping embedded quotes as `'\''`. -/

/-- The request data `curl` reads: method, host, the URL's string form,
whether TLS is active, and the header multimap (as an ordered
association list). -/
structure CurlRequest where
  method : String
  host : String
  urlStr : String
  tls : Bool
  headers : List (String × List String)

/-- `requestURL` (`part_026:36-43`): scheme from TLS presence, then
`scheme://host` followed by the URL. -/
def requestURL (r : CurlRequest) : String :=
  (if r.tls then "https" else "http") ++ "://" ++ r.host ++ r.urlStr

/-- `strings.ReplaceAll(v, "'", "'\\''")` over characters. -/
def escapeQuotes : List Char → List Char
  | [] => []
  | c :: cs =>
    if c = '\x27' then '\x27' :: '\\' :: '\x27' :: '\x27' :: escapeQuotes cs
    else c :: escapeQuotes cs

/-- `singleQuoted` (`part_026:32-34`). -/
def singleQuoted (v : String) : String :=
  "\x27" ++ String.mk (escapeQuotes v.data) ++ "\x27"

/-- The `-H` flags for one header name, one per value (`part_026:24-26`,
inner loop). -/
def headerValueFlags (name : String) : List String → String
  | [] => ""
  | v :: vs => " -H " ++ singleQuoted (name ++ ": " ++ v) ++ headerValueFlags name vs

/-- The `-H` flags for all headers (`part_026:23-27`, outer loop).  Go
iterates the header map in unspecified order; the model fixes the order
of the association list. -/
def headerFlags : List (String × List String) → String
  | [] => ""
  | (name, vals) :: rest => headerValueFlags name vals ++ headerFlags rest

/-- `curl` (`part_026:9-30`): the builder writes `curl`, the `-X` flag for
methods other than GET and POST, the quoted URL, the `--data-raw` clause
for POST, then the `-H` flags. -/
def curl (r : CurlRequest) (reqBody : String) : String :=
  "curl" ++
  (if r.method ≠ "GET" ∧ r.method ≠ "POST" then " -X " ++ r.method else "") ++
  " " ++ singleQuoted (requestURL r) ++
  (if r.method = "POST" then " --data-raw " ++ singleQuoted reqBody else "") ++
  headerFlags r.headers

/-- The curl line as the spec words it (§4.7): omit `-X` exactly when the
method is GET or POST, single-quote all values, include `--data-raw`
exactly when the method is POST, and emit one `-H` flag per header
value. -/
def curlSpec (r : CurlRequest) (reqBody : String) : String :=
  "curl" ++
  (if r.method = "GET" ∨ r.method = "POST" then "" else " -X " ++ r.method) ++
  " " ++ singleQuoted (requestURL r) ++
  (if r.method = "POST" then " --data-raw " ++ singleQuoted reqBody else "") ++
  String.join (r.headers.map (fun p =>
    String.join (p.snd.map (fun v => " -H " ++ singleQuoted (p.fst ++ ": " ++ v)))))

/-- Folding string append over a list, hoisting the accumulator. -/
theorem strFoldl_hoist (l : List String) :
    ∀ s, l.foldl (fun r t => r ++ t) s = s ++ l.foldl (fun r t => r ++ t) "" := by
  induction l with
  | nil =>
    intro s
    simp [String.append_empty]
  | cons a l ih =>
    intro s
    simp only [List.foldl_cons]
    rw [ih (s ++ a), ih ("" ++ a), String.empty_append, String.append_assoc]

/-- `String.join` unfolds one element at a time. -/
theorem strJoin_cons (a : String) (l : List String) :
    String.join (a :: l) = a ++ String.join l := by
  show (a :: l).foldl (fun r t => r ++ t) "" = a ++ l.foldl (fun r t => r ++ t) ""
  rw [List.foldl_cons, String.empty_append, strFoldl_hoist l a]

/-- `headerFlags` is the join of the per-value `-H` flags. -/
theorem headerFlags_eq_join (hs : List (String × List String)) :
    headerFlags hs = String.join (hs.map (fun p =>
      String.join (p.snd.map (fun v =>
        " -H " ++ singleQuoted (p.fst ++ ": " ++ v))))) := by
  induction hs with
  | nil => rfl
  | cons p rest ih =>
    obtain ⟨name, vals⟩ := p
    have hv : ∀ vs : List String, headerValueFlags name vs =
        String.join (vs.map (fun v =>
          " -H " ++ singleQuoted (name ++ ": " ++ v))) := by
      intro vs
      induction vs with
      | nil => rfl
      | cons v vs ihv =>
        simp only [headerValueFlags, ihv, List.map_cons, strJoin_cons,
          String.append_assoc]
    simp only [headerFlags, ih, hv, List.map_cons, strJoin_cons]

/-- C9: `curl` is a pure rendering equal, for every request and body, to
the spec's description; on the example `GET http://h/p` with header
`A: 1` it produces exactly `curl 'http://h/p' -H 'A: 1'`, and an
embedded quote in a POST body is escaped as `'\''`. -/
theorem curl_spec :
    (∀ (r : CurlRequest) (reqBody : String), curl r reqBody = curlSpec r reqBody) ∧
    curl { method := "GET", host := "h", urlStr := "/p", tls := false,
           headers := [("A", ["1"])] } "" =
      "curl \x27http://h/p\x27 -H \x27A: 1\x27" ∧
    singleQuoted "x\x27y" = "\x27x\x27\\\x27\x27y\x27" ∧
    curl { method := "POST", host := "h", urlStr := "/p", tls := false,
           headers := [] } "x\x27y" =
      "curl \x27http://h/p\x27 --data-raw \x27x\x27\\\x27\x27y\x27" := by
  refine ⟨?_, by rfl, by rfl, by rfl⟩
  intro r reqBody
  unfold curl curlSpec
  rw [headerFlags_eq_join]
  by_cases hg : r.method = "GET"
  · simp [hg]
  · by_cases hp : r.method = "POST"
    · simp [hp]
    · simp [hg, hp]

end Httplog
